import Mathlib

/-!
Shallow embedding of the user-authentication core of the repository
(`0x00-personal_data/encrypt_password.py`, `0x03-user_authentication_service/`:
`user.py`, `db.py`, `auth.py`), together with proofs settling the frozen
claims about the natural-language specification.

Modelling conventions:
- Python exceptions are modelled with `Except PyErr`.  Every raising path in
  the source raises before any mutation is committed, so an operation that
  fails returns `Except.error e` and the caller's database state is, by the
  shape of the model, unchanged.
- The `bcrypt` library and the `uuid4` generator are external to the
  repository; `bcrypt` is modelled from the spec (see `Bytes`, `hashpw`,
  `checkpw`) and `uuid4`/`gensalt` outputs are passed to each operation as
  explicit oracle arguments (`fresh`, `salt`), which makes the operations
  deterministic functions of their inputs.
- The SQLAlchemy store is a list of `User` rows in insertion order plus the
  autoincrement counter; `.first()` on an unordered query is first match in
  insertion order.
-/

namespace AuthSpec

/-- Python exceptions that the modelled code can raise:
`sqlalchemy.orm.exc.NoResultFound`, `sqlalchemy.exc.InvalidRequestError`
and `ValueError` (with its message).  `nonColumnQuery` is an opaque marker
for what happens when a query or update is built against a class attribute
that passes `hasattr(User, key)` but is not a mapped column (for example
`metadata`): the source does not determine that outcome (SQLAlchemy fails
later with a library error, or worse), it only determines that the
`hasattr` guard itself does not raise `InvalidRequestError` there.  No
claim relies on the precise outcome of that branch. -/
inductive PyErr where
  | noResultFound
  | invalidRequestError
  | valueError (msg : String)
  | nonColumnQuery
deriving DecidableEq, Repr

/-- Modelled from the spec: the byte strings handled by the external `bcrypt`
library (the library itself is not part of this repository).  A value is
either a well-formed bcrypt hash — which embeds the salt it was produced with
and the resulting digest — or an arbitrary malformed byte string that the
library cannot parse. -/
inductive Bytes where
  | bcryptHash (salt : Nat) (digest : Nat)
  | raw (s : String)
deriving DecidableEq, Repr

/-- Modelled from the spec: bcrypt's one-way digest of a password under a
salt (the concrete mixing function is irrelevant to the claims; what matters
is that it is a function of salt and password). -/
def bcryptDigest (salt : Nat) (pw : String) : Nat :=
  pw.foldl (fun a c => (a * 31 + c.toNat) % 2 ^ 64) (salt + 5381)

/-- Modelled from the spec: `bcrypt.hashpw(password, salt)` produces a hash
embedding the salt and the digest of the password under that salt. -/
def hashpw (pw : String) (salt : Nat) : Bytes :=
  .bcryptHash salt (bcryptDigest salt pw)

/-- Modelled from the spec: `bcrypt.checkpw(password, hashed)` re-hashes the
password under the salt embedded in `hashed` and compares; on a byte string
that does not parse as a bcrypt hash it raises `ValueError("Invalid salt")`
(pyca/bcrypt behaviour: `checkpw` calls `hashpw` with the stored value as the
salt argument, which rejects malformed salts). -/
def checkpw (pw : String) (h : Bytes) : Except PyErr Bool :=
  match h with
  | .bcryptHash salt d => .ok (decide (bcryptDigest salt pw = d))
  | .raw _ => .error (.valueError "Invalid salt")

/-- Embedding of `encrypt_password.hash_password` (0x00-personal_data):
`return bcrypt.hashpw(password.encode('utf-8'), bcrypt.gensalt())`; the
`gensalt()` output is the explicit oracle argument `salt`. -/
def hash_password (password : String) (salt : Nat) : Bytes :=
  hashpw password salt

/-- Embedding of `encrypt_password.is_valid` (0x00-personal_data):
`return bcrypt.checkpw(password.encode('utf-8'), hashed_password)` — no
exception handling around the library call. -/
def is_valid (hashed_password : Bytes) (password : String) : Except PyErr Bool :=
  checkpw password hashed_password

/-- Embedding of the `User` model (`user.py`): columns `id`, `email`,
`hashed_password`, `session_id` (nullable), `reset_token` (nullable). -/
structure User where
  id : Nat
  email : String
  hashed_password : Bytes
  session_id : Option String
  reset_token : Option String
deriving DecidableEq, Repr

/-- Values that can appear in a `find_user_by`/`update_user` keyword
argument: the column types of `User` plus Python `None`. -/
inductive Value where
  | vint (n : Nat)
  | vstr (s : String)
  | vbytes (b : Bytes)
  | vnone
deriving DecidableEq, Repr

/-- Names of the mapped columns of the `User` model — the attribute names
that are usable in queries and updates. -/
def userAttrs : List String :=
  ["id", "email", "hashed_password", "session_id", "reset_token"]

/-- Character-level check that a name ends in `__`. -/
def endsWithDunder : List Char → Bool
  | [] => false
  | ['_', '_'] => true
  | _ :: rest => endsWithDunder rest

/-- Dunder names (`__init__`, `__tablename__`, `__eq__`, …): every such name
inherited from `object` or added by the declarative machinery satisfies
`hasattr(User, name)`.  A dunder name starts and ends with `__`. -/
def isDunder (k : String) : Bool :=
  match k.data with
  | '_' :: '_' :: _ => endsWithDunder k.data
  | _ => false

/-- Non-dunder, non-column attribute names that the declarative `User` class
also exposes (SQLAlchemy machinery on the class, plus what `type` provides):
`hasattr(User, name)` holds for these as well. -/
def nonColumnAttrs : List String :=
  ["metadata", "registry", "mro", "_sa_class_manager", "_sa_registry",
   "_decl_class_registry"]

/-- Model of Python's `hasattr(User, key)`: true on the five mapped columns
and on the class's non-column attributes — the SQLAlchemy/`type` machinery
names above together with every dunder name.  (The non-column side mirrors
the attribute surface of a declarative class; it is what makes the
`hasattr` guard strictly wider than the set of queryable columns.) -/
def userHasAttr (k : String) : Bool :=
  userAttrs.contains k || nonColumnAttrs.contains k || isDunder k

/-- Reading `getattr(User, key)` applied to a row: the value of the column
named `key` on user `u`. -/
def getField (u : User) : String → Value
  | "id" => .vint u.id
  | "email" => .vstr u.email
  | "hashed_password" => .vbytes u.hashed_password
  | "session_id" => match u.session_id with | some s => .vstr s | none => .vnone
  | "reset_token" => match u.reset_token with | some s => .vstr s | none => .vnone
  | _ => .vnone

/-- Coercion of a keyword value into a nullable string column. -/
def asOptStr : Value → Option String
  | .vstr s => some s
  | _ => none

/-- Writing column `k` of row `u` to value `v` (one entry of the
`update_source` dict applied by `query.update`).  The source only ever
writes well-typed values; an ill-typed write leaves the row unchanged. -/
def setField (u : User) (k : String) (v : Value) : User :=
  if k = "id" then match v with | .vint n => { u with id := n } | _ => u
  else if k = "email" then match v with | .vstr e => { u with email := e } | _ => u
  else if k = "hashed_password" then
    match v with | .vbytes b => { u with hashed_password := b } | _ => u
  else if k = "session_id" then { u with session_id := asOptStr v }
  else if k = "reset_token" then { u with reset_token := asOptStr v }
  else u

/-- Conjunctive match of a row against a criteria map, as built by
`tuple_(*fields).in_([tuple(values)])`: every (field, value) pair must hold. -/
def matchesCriteria (u : User) (kw : List (String × Value)) : Bool :=
  kw.all (fun p => decide (getField u p.1 = p.2))

/-- Database state of `DB` (`db.py`): the `users` table in insertion order
plus the autoincrement counter for the `id` primary key (SQLite assigns
1, 2, …). -/
structure DBState where
  users : List User
  nextId : Nat
deriving DecidableEq, Repr

namespace DB

/-- Embedding of `DB.add_user`: constructs the row, inserts, commits, and
returns it (the generic `except Exception` branch is unreachable in this
model since the insert cannot fail). -/
def add_user (email : String) (hashed_password : Bytes) (s : DBState) :
    User × DBState :=
  let u : User := ⟨s.nextId, email, hashed_password, none, none⟩
  (u, ⟨s.users ++ [u], s.nextId + 1⟩)

/-- Embedding of `DB.find_user_by`: the loop raises `InvalidRequestError`
as soon as some keyword name fails `hasattr(User, key)` — this happens
before any query is built, for every caller and state.  When every name
passes the guard but some name is a non-column attribute (e.g. `metadata`),
the query is built against a non-column expression: that outcome is the
opaque `nonColumnQuery` (see `PyErr`).  When every name is a mapped column,
the query returns the first row matching all pairs conjunctively, and
raises `NoResultFound` when there is none. -/
def find_user_by (kw : List (String × Value)) (s : DBState) : Except PyErr User :=
  if kw.all (fun p => userHasAttr p.1) then
    if kw.all (fun p => userAttrs.contains p.1) then
      match s.users.find? (fun u => matchesCriteria u kw) with
      | some u => .ok u
      | none => .error .noResultFound
    else .error .nonColumnQuery
  else .error .invalidRequestError

/-- Embedding of `DB.update_user`: first `find_user_by(id=user_id)` (its
`NoResultFound` propagates; the `if user is None` guard in the source is
dead code); then the loop raises `ValueError` as soon as some keyword name
fails `hasattr(User, key)`; a non-column attribute name passes that guard
and poisons the update dict — the opaque `nonColumnQuery` outcome, as in
`find_user_by`.  With only mapped columns, one single `query.update` sets
all the given columns on every row whose `id` equals `user_id`, and
commits. -/
def update_user (user_id : Nat) (kw : List (String × Value)) (s : DBState) :
    Except PyErr DBState :=
  match find_user_by [("id", .vint user_id)] s with
  | .error e => .error e
  | .ok _ =>
    if kw.all (fun p => userHasAttr p.1) then
      if kw.all (fun p => userAttrs.contains p.1) then
        .ok { s with
              users := s.users.map (fun u =>
                if u.id = user_id then kw.foldl (fun v p => setField v p.1 p.2) u
                else u) }
      else .error .nonColumnQuery
    else .error (.valueError "")

end DB

namespace Auth

/-- Embedding of `auth._hash_password`: `bcrypt.hashpw(password, gensalt())`
with the salt as oracle argument. -/
def _hash_password (password : String) (salt : Nat) : Bytes :=
  hashpw password salt

/-- Embedding of `Auth.register_user`: look up by email; on `NoResultFound`
hash the password and `add_user`; if the lookup succeeded raise
`ValueError("User <email> already exists")`. -/
def register_user (salt : Nat) (email password : String) (s : DBState) :
    Except PyErr (User × DBState) :=
  match DB.find_user_by [("email", .vstr email)] s with
  | .error .noResultFound => .ok (DB.add_user email (_hash_password password salt) s)
  | .error e => .error e
  | .ok _ => .error (.valueError ("User " ++ email ++ " already exists"))

/-- Embedding of `Auth.valid_login`: look up by email; `NoResultFound` is
caught and collapses to `False`; otherwise `bcrypt.checkpw` against the
stored hash (whose `ValueError` would propagate). -/
def valid_login (email password : String) (s : DBState) : Except PyErr Bool :=
  match DB.find_user_by [("email", .vstr email)] s with
  | .error .noResultFound => .ok false
  | .error e => .error e
  | .ok u => checkpw password u.hashed_password

/-- Embedding of `Auth.create_session`: look up by email; `NoResultFound`
collapses to `None`; otherwise generate a uuid (oracle argument `fresh`),
persist it as the user's `session_id` via `update_user`, and return it. -/
def create_session (fresh : String) (email : String) (s : DBState) :
    Except PyErr (Option String × DBState) :=
  match DB.find_user_by [("email", .vstr email)] s with
  | .error .noResultFound => .ok (none, s)
  | .error e => .error e
  | .ok u =>
    match DB.update_user u.id [("session_id", .vstr fresh)] s with
    | .error e => .error e
    | .ok s' => .ok (some fresh, s')

/-- Embedding of `Auth.get_user_from_session_id`: `None` short-circuits
(only `is None` is tested — the empty string is not short-circuited);
otherwise look up by `session_id`, with `NoResultFound` collapsing to
`None`. -/
def get_user_from_session_id (session_id : Option String) (s : DBState) :
    Except PyErr (Option User) :=
  match session_id with
  | none => .ok none
  | some sid =>
    match DB.find_user_by [("session_id", .vstr sid)] s with
    | .ok u => .ok (some u)
    | .error .noResultFound => .ok none
    | .error e => .error e

/-- Instrumented copy of `Auth.get_user_from_session_id` that additionally
counts how many `find_user_by` store round-trips the call performs. -/
def get_user_from_session_id_traced (session_id : Option String) (s : DBState) :
    Except PyErr (Option User) × Nat :=
  match session_id with
  | none => (.ok none, 0)
  | some sid =>
    match DB.find_user_by [("session_id", .vstr sid)] s with
    | .ok u => (.ok (some u), 1)
    | .error .noResultFound => (.ok none, 1)
    | .error e => (.error e, 1)

/-- Embedding of `Auth.destroy_session`: no-op on `None`; otherwise
`update_user(user_id, session_id=None)` (whose `NoResultFound` for an
unknown id propagates). -/
def destroy_session (user_id : Option Nat) (s : DBState) : Except PyErr DBState :=
  match user_id with
  | none => .ok s
  | some uid => DB.update_user uid [("session_id", .vnone)] s

/-- Embedding of `Auth.get_reset_password_token`: look up by email;
`NoResultFound` leads to `raise ValueError()`; otherwise generate a uuid
(oracle argument `fresh`), persist it as `reset_token`, return it. -/
def get_reset_password_token (fresh : String) (email : String) (s : DBState) :
    Except PyErr (String × DBState) :=
  match DB.find_user_by [("email", .vstr email)] s with
  | .error .noResultFound => .error (.valueError "")
  | .error e => .error e
  | .ok u =>
    match DB.update_user u.id [("reset_token", .vstr fresh)] s with
    | .error e => .error e
    | .ok s' => .ok (fresh, s')

/-- Embedding of `Auth.update_password`: look up by `reset_token`;
`NoResultFound` leads to `raise ValueError()`; otherwise hash the new
password and, in one single `update_user` call, set `hashed_password` to the
new hash and clear `reset_token` to `None`. -/
def update_password (salt : Nat) (reset_token password : String) (s : DBState) :
    Except PyErr DBState :=
  match DB.find_user_by [("reset_token", .vstr reset_token)] s with
  | .error .noResultFound => .error (.valueError "")
  | .error e => .error e
  | .ok u =>
    DB.update_user u.id
      [("hashed_password", .vbytes (_hash_password password salt)),
       ("reset_token", .vnone)] s

end Auth

/-! Helper lemmas about the embedding, shared by several claims. -/

/-- Pointwise-equal predicates find the same first element. -/
lemma find?_congr {α} {p q : α → Bool} (l : List α) (h : ∀ x ∈ l, p x = q x) :
    l.find? p = l.find? q := by
  induction l with
  | nil => rfl
  | cons a l ih =>
    have ha : p a = q a := h a (List.mem_cons_self a l)
    by_cases hq : q a = true
    · rw [List.find?_cons_of_pos _ (ha.trans hq), List.find?_cons_of_pos _ hq]
    · rw [List.find?_cons_of_neg _ (by rw [ha]; exact hq), List.find?_cons_of_neg _ hq]
      exact ih fun x hx => h x (List.mem_cons_of_mem _ hx)

lemma matches_email (u : User) (e : String) :
    matchesCriteria u [("email", .vstr e)] = decide (u.email = e) := by
  have h : getField u "email" = .vstr u.email := rfl
  simp [matchesCriteria, h, Value.vstr.injEq]

lemma matches_id (u : User) (n : Nat) :
    matchesCriteria u [("id", .vint n)] = decide (u.id = n) := by
  have h : getField u "id" = .vint u.id := rfl
  simp [matchesCriteria, h, Value.vint.injEq]

lemma matches_session (u : User) (t : String) :
    matchesCriteria u [("session_id", .vstr t)] = decide (u.session_id = some t) := by
  have h : getField u "session_id"
      = match u.session_id with | some s => .vstr s | none => .vnone := rfl
  cases hs : u.session_id with
  | none => simp [matchesCriteria, h, hs]
  | some s => simp [matchesCriteria, h, hs, Value.vstr.injEq]

lemma matches_reset (u : User) (t : String) :
    matchesCriteria u [("reset_token", .vstr t)] = decide (u.reset_token = some t) := by
  have h : getField u "reset_token"
      = match u.reset_token with | some s => .vstr s | none => .vnone := rfl
  cases hs : u.reset_token with
  | none => simp [matchesCriteria, h, hs]
  | some s => simp [matchesCriteria, h, hs, Value.vstr.injEq]

lemma find_user_by_email (e : String) (s : DBState) :
    DB.find_user_by [("email", .vstr e)] s =
      match s.users.find? (fun u => decide (u.email = e)) with
      | some u => .ok u
      | none => .error .noResultFound := by
  unfold DB.find_user_by
  rw [if_pos (by rfl)]
  rw [if_pos (by rfl)]
  rw [find?_congr s.users (fun u _ => matches_email u e)]

lemma find_user_by_id (n : Nat) (s : DBState) :
    DB.find_user_by [("id", .vint n)] s =
      match s.users.find? (fun u => decide (u.id = n)) with
      | some u => .ok u
      | none => .error .noResultFound := by
  unfold DB.find_user_by
  rw [if_pos (by rfl)]
  rw [if_pos (by rfl)]
  rw [find?_congr s.users (fun u _ => matches_id u n)]

lemma find_user_by_session (t : String) (s : DBState) :
    DB.find_user_by [("session_id", .vstr t)] s =
      match s.users.find? (fun u => decide (u.session_id = some t)) with
      | some u => .ok u
      | none => .error .noResultFound := by
  unfold DB.find_user_by
  rw [if_pos (by rfl)]
  rw [if_pos (by rfl)]
  rw [find?_congr s.users (fun u _ => matches_session u t)]

lemma find_user_by_reset (t : String) (s : DBState) :
    DB.find_user_by [("reset_token", .vstr t)] s =
      match s.users.find? (fun u => decide (u.reset_token = some t)) with
      | some u => .ok u
      | none => .error .noResultFound := by
  unfold DB.find_user_by
  rw [if_pos (by rfl)]
  rw [if_pos (by rfl)]
  rw [find?_congr s.users (fun u _ => matches_reset u t)]

/-- Keywords naming only mapped columns also pass the wider `hasattr`
guard. -/
lemma all_hasAttr_of_columns {kw : List (String × Value)}
    (h : kw.all (fun p => userAttrs.contains p.1) = true) :
    kw.all (fun p => userHasAttr p.1) = true := by
  rw [List.all_eq_true] at h ⊢
  intro x hx
  have hc := h x hx
  simp only [userHasAttr]
  simp at hc ⊢
  exact Or.inl (Or.inl hc)

/-- When some row has id `uid`, `update_user` succeeds and performs the
single map over the table. -/
lemma update_user_ok (uid : Nat) (kw : List (String × Value)) (s : DBState)
    (hkw : kw.all (fun p => userAttrs.contains p.1) = true)
    (u : User) (hu : u ∈ s.users) (hid : u.id = uid) :
    DB.update_user uid kw s =
      .ok { s with users := s.users.map (fun v =>
        if v.id = uid then kw.foldl (fun w p => setField w p.1 p.2) v else v) } := by
  unfold DB.update_user
  rw [find_user_by_id]
  rcases hfind : s.users.find? (fun v => decide (v.id = uid)) with _ | w
  · rw [List.find?_eq_none] at hfind
    exact absurd (by simp [hid] : (fun v => decide (v.id = uid)) u = true)
      (by simpa using hfind u hu)
  · rw [hfind]
    simp only [all_hasAttr_of_columns hkw, hkw]
    simp

/-- With pairwise-distinct ids (the primary-key invariant), the first row
whose id equals `u.id` is `u` itself. -/
lemma find?_id_of_nodup {l : List User} (h : (l.map User.id).Nodup) {u : User}
    (hu : u ∈ l) : l.find? (fun v => decide (v.id = u.id)) = some u := by
  induction l with
  | nil => cases hu
  | cons a l ih =>
    rcases List.mem_cons.mp hu with rfl | hu'
    · exact List.find?_cons_of_pos _ (by simp)
    · have hcons : (∀ x ∈ l, ¬ x.id = a.id) ∧ (l.map User.id).Nodup := by
        simpa using h
      have hne : a.id ≠ u.id := fun he => (hcons.1 u hu') he.symm
      rw [List.find?_cons_of_neg _ (by simp [hne])]
      exact ih hcons.2 hu'

lemma foldl_set_session_str (v : User) (t : String) :
    [(("session_id" : String), Value.vstr t)].foldl (fun w p => setField w p.1 p.2) v
      = { v with session_id := some t } := rfl

lemma foldl_set_session_none (v : User) :
    [(("session_id" : String), Value.vnone)].foldl (fun w p => setField w p.1 p.2) v
      = { v with session_id := none } := rfl

lemma foldl_set_reset_str (v : User) (t : String) :
    [(("reset_token" : String), Value.vstr t)].foldl (fun w p => setField w p.1 p.2) v
      = { v with reset_token := some t } := rfl

lemma foldl_set_pw_reset (v : User) (b : Bytes) :
    [(("hashed_password" : String), Value.vbytes b),
     (("reset_token" : String), Value.vnone)].foldl (fun w p => setField w p.1 p.2) v
      = { v with hashed_password := b, reset_token := none } := rfl

/-! Claims. -/

/-- C3: for every plaintext password (and every salt the generator may
produce), verifying the password against the hash produced for it succeeds:
`is_valid (hash_password p) p` returns `true`. -/
theorem hash_verify_roundtrip (p : String) (salt : Nat) :
    is_valid (hash_password p salt) p = .ok true := by
  simp [is_valid, hash_password, hashpw, checkpw]

/-- C6 counterexample: on a malformed hash that the hasher could not have
produced, `is_valid` raises `ValueError("Invalid salt")` — it does not return
`false` — so the claim that verify never throws is false on the code. -/
theorem is_valid_malformed_raises :
    is_valid (Bytes.raw "nothash") "pw" = .error (.valueError "Invalid salt") := rfl

/-- C6 amended: `is_valid` contains no exception handling; on a well-formed
bcrypt hash it returns a boolean (and never raises), but on a malformed hash
it propagates the underlying library's `ValueError("Invalid salt")` rather
than returning `false`. -/
theorem is_valid_wellformed_total :
    (∀ (salt d : Nat) (p : String),
        is_valid (Bytes.bcryptHash salt d) p = .ok (decide (bcryptDigest salt p = d))) ∧
    (∀ (s p : String), is_valid (Bytes.raw s) p = .error (.valueError "Invalid salt")) :=
  ⟨fun _ _ _ => rfl, fun _ _ => rfl⟩

/-- Sample row used to exercise `find_user_by` on the `hashed_password`
column. -/
def hprow : User := ⟨1, "a@b.com", Bytes.raw "h", none, none⟩

/-- C4 counterexample: `hashed_password` lies outside the claimed closed
enumeration {id, email, session_id, reset_token}, yet `find_user_by` does not
fail `InvalidRequestError` on it: the criteria is accepted (because
`hasattr(User, "hashed_password")` holds) and the matching row is returned. -/
theorem find_user_by_hashed_password_accepted :
    "hashed_password" ∉ ["id", "email", "session_id", "reset_token"] ∧
    DB.find_user_by [("hashed_password", .vbytes (Bytes.raw "h"))] ⟨[hprow], 2⟩
      = .ok hprow :=
  ⟨by decide, rfl⟩

/-- Sanity check of the embedding: a non-column class attribute such as
`metadata` passes the `hasattr` guard, so the outcome is the opaque
non-column query — never the guard's `InvalidRequestError`. -/
lemma find_user_by_metadata_passes_guard (v : Value) (s : DBState) :
    DB.find_user_by [("metadata", v)] s = .error .nonColumnQuery := rfl

/-- C4 amended: the guard is `hasattr(User, key)`, not the four-field
enumeration: `find_user_by` fails `InvalidRequestError` exactly when some
criteria field is not an attribute of the `User` class, for every caller
and every state, regardless of whether a row would match the remaining
criteria; a field that is an attribute of the class — the column
`hashed_password` as much as non-column attributes such as `metadata` —
passes the guard without `InvalidRequestError`. -/
theorem find_user_by_invalid_attribute (kw : List (String × Value))
    (k : String) (v : Value) (s : DBState)
    (hk : (k, v) ∈ kw) (hbad : userHasAttr k = false) :
    DB.find_user_by kw s = .error .invalidRequestError := by
  unfold DB.find_user_by
  have hall : ¬ (kw.all (fun p => userHasAttr p.1) = true) := by
    intro hall
    have h1 : userHasAttr k = true := by
      simpa using (List.all_eq_true.mp hall) (k, v) hk
    rw [hbad] at h1
    cases h1
  rw [if_neg hall]

theorem find_user_by_invalid_attribute_witness :
    DB.find_user_by [("foo", .vstr "x")] ⟨[hprow], 2⟩ = .error .invalidRequestError :=
  find_user_by_invalid_attribute _ "foo" (.vstr "x") _ (by decide) (by decide)

/-- Sample row whose `session_id` is the empty string. -/
def emptySessionRow : User := ⟨1, "a@b.com", Bytes.raw "h", some "", none⟩

/-- C7 counterexample: for the empty-string token the code does not
short-circuit — only `None` is tested — so it performs the store lookup, and
in a state where a user's `session_id` is the empty string it returns that
user rather than `None`. -/
theorem get_user_from_session_id_empty_hits_store :
    Auth.get_user_from_session_id (some "") ⟨[emptySessionRow], 2⟩
        = .ok (some emptySessionRow) ∧
    (Auth.get_user_from_session_id_traced (some "") ⟨[emptySessionRow], 2⟩).2 = 1 :=
  ⟨rfl, rfl⟩

/-- C7 amended: only a `None` token short-circuits without a store lookup;
any string token — the empty string included — performs exactly one store
lookup by `session_id` and returns the first matching user, or `None` when no
user matches. -/
theorem get_user_from_session_id_spec (s : DBState) :
    Auth.get_user_from_session_id_traced none s = (.ok none, 0) ∧
    ∀ t : String,
      (Auth.get_user_from_session_id_traced (some t) s).2 = 1 ∧
      Auth.get_user_from_session_id (some t) s
        = (Auth.get_user_from_session_id_traced (some t) s).1 ∧
      (Auth.get_user_from_session_id_traced (some t) s).1
        = (match s.users.find? (fun u => decide (u.session_id = some t)) with
           | some u => .ok (some u)
           | none => .ok none) := by
  refine ⟨rfl, fun t => ?_⟩
  have h1 : Auth.get_user_from_session_id_traced (some t) s
      = (match DB.find_user_by [("session_id", Value.vstr t)] s with
         | .ok u => (.ok (some u), 1)
         | .error .noResultFound => (.ok none, 1)
         | .error e => (.error e, 1)) := rfl
  have h2 : Auth.get_user_from_session_id (some t) s
      = (match DB.find_user_by [("session_id", Value.vstr t)] s with
         | .ok u => .ok (some u)
         | .error .noResultFound => .ok none
         | .error e => .error e) := rfl
  rw [h1, h2, find_user_by_session]
  cases hfind : s.users.find? (fun u => decide (u.session_id = some t)) with
  | none => exact ⟨rfl, rfl, rfl⟩
  | some u => exact ⟨rfl, rfl, rfl⟩

lemma create_session_eq_of_found (fresh e : String) (s : DBState) (u : User)
    (hu : s.users.find? (fun v => decide (v.email = e)) = some u) :
    Auth.create_session fresh e s
      = (match DB.update_user u.id [("session_id", .vstr fresh)] s with
         | .error e => .error e
         | .ok s' => .ok (some fresh, s')) := by
  unfold Auth.create_session
  rw [find_user_by_email, hu]

/-- C2: when no stored user has email `e`, `create_session` returns `None`
(and the state is untouched); when the first stored user with email `e` is
`u`, it returns the generated token, persists it as `u`'s `session_id`, and
`get_user_from_session_id` on that token returns that same user row, now
carrying the token.  Hypotheses: pairwise-distinct ids (the primary-key
invariant) and freshness of the generated uuid (collision-freedom). -/
theorem create_session_spec (fresh e : String) (s : DBState)
    (hids : (s.users.map User.id).Nodup)
    (hfresh : ∀ u ∈ s.users, u.session_id ≠ some fresh) :
    ((∀ u ∈ s.users, u.email ≠ e) →
        Auth.create_session fresh e s = .ok (none, s)) ∧
    (∀ u, s.users.find? (fun v => decide (v.email = e)) = some u →
      ∃ s', Auth.create_session fresh e s = .ok (some fresh, s') ∧
        { u with session_id := some fresh } ∈ s'.users ∧
        Auth.get_user_from_session_id (some fresh) s'
          = .ok (some { u with session_id := some fresh })) := by
  constructor
  · intro hno
    have hfind : s.users.find? (fun v => decide (v.email = e)) = none := by
      rw [List.find?_eq_none]
      intro x hx
      simpa using hno x hx
    unfold Auth.create_session
    rw [find_user_by_email, hfind]
  · intro u hu
    have humem : u ∈ s.users := List.mem_of_find?_eq_some hu
    have hupd := update_user_ok u.id [("session_id", .vstr fresh)] s rfl u humem rfl
    have hfold : (fun v : User => if v.id = u.id then
          [(("session_id" : String), Value.vstr fresh)].foldl
            (fun w p => setField w p.1 p.2) v
          else v)
        = (fun v : User =>
            if v.id = u.id then { v with session_id := some fresh } else v) := by
      funext v
      rw [foldl_set_session_str]
    refine ⟨{ s with users := s.users.map (fun v =>
        if v.id = u.id then { v with session_id := some fresh } else v) },
      ?_, ?_, ?_⟩
    · rw [create_session_eq_of_found fresh e s u hu, hupd, hfold]
    · exact List.mem_map.mpr ⟨u, humem, by simp⟩
    · have h2 : Auth.get_user_from_session_id (some fresh)
          { s with users := s.users.map (fun v =>
              if v.id = u.id then { v with session_id := some fresh } else v) }
          = (match DB.find_user_by [("session_id", Value.vstr fresh)]
              { s with users := s.users.map (fun v =>
                if v.id = u.id then { v with session_id := some fresh } else v) } with
             | .ok w => .ok (some w)
             | .error .noResultFound => .ok none
             | .error e => .error e) := rfl
      rw [h2, find_user_by_session]
      have hpt : ∀ v ∈ s.users,
          ((fun w : User => decide (w.session_id = some fresh)) ∘
            (fun v : User =>
              if v.id = u.id then { v with session_id := some fresh } else v)) v
          = (fun v : User => decide (v.id = u.id)) v := by
        intro v hv
        by_cases h : v.id = u.id <;> simp [Function.comp, h, hfresh v hv]
      have hmap : (s.users.map (fun v =>
            if v.id = u.id then { v with session_id := some fresh } else v)).find?
            (fun w => decide (w.session_id = some fresh))
          = some { u with session_id := some fresh } := by
        rw [List.find?_map, find?_congr s.users hpt, find?_id_of_nodup hids humem]
        simp
      rw [hmap]

/-- Sample row: the user that `register_user` creates in the empty store. -/
def sampleUser : User :=
  ⟨1, "a@b.com", Bytes.bcryptHash 7 (bcryptDigest 7 "pw1"), none, none⟩

/-- Sample state with the one registered user. -/
def sampleState : DBState := ⟨[sampleUser], 2⟩

theorem create_session_spec_witness :
    (Auth.create_session "sess-1" "zz@x" sampleState = .ok (none, sampleState)) ∧
    ∃ s', Auth.create_session "sess-1" "a@b.com" sampleState
        = .ok (some "sess-1", s') ∧
      { sampleUser with session_id := some "sess-1" } ∈ s'.users ∧
      Auth.get_user_from_session_id (some "sess-1") s'
        = .ok (some { sampleUser with session_id := some "sess-1" }) :=
  ⟨(create_session_spec "sess-1" "zz@x" sampleState (by decide) (by decide)).1
      (by decide),
   (create_session_spec "sess-1" "a@b.com" sampleState (by decide) (by decide)).2
      sampleUser rfl⟩

/-- C5: when no stored user has email `e`, `register_user` succeeds and
stores a row for `e` carrying the hash of `p`; a second registration for the
same email fails `ValueError("User <e> already exists")` and the stored hash
for `e` is unchanged — every row with email `e` still carries the hash of
`p`. -/
theorem register_user_spec (salt salt2 : Nat) (e p p2 : String) (s : DBState)
    (h : ∀ u ∈ s.users, u.email ≠ e) :
    ∃ u s', Auth.register_user salt e p s = .ok (u, s') ∧
      u.email = e ∧ u.hashed_password = Auth._hash_password p salt ∧
      u ∈ s'.users ∧
      Auth.register_user salt2 e p2 s'
        = .error (.valueError ("User " ++ e ++ " already exists")) ∧
      ∀ v ∈ s'.users, v.email = e →
        v.hashed_password = Auth._hash_password p salt := by
  have hfind : s.users.find? (fun v => decide (v.email = e)) = none := by
    rw [List.find?_eq_none]
    intro x hx
    simpa using h x hx
  have h1 : Auth.register_user salt e p s
      = .ok (DB.add_user e (Auth._hash_password p salt) s) := by
    unfold Auth.register_user
    rw [find_user_by_email, hfind]
  set u : User := ⟨s.nextId, e, Auth._hash_password p salt, none, none⟩ with hu
  set s' : DBState := ⟨s.users ++ [u], s.nextId + 1⟩ with hs'
  have hadd : DB.add_user e (Auth._hash_password p salt) s = (u, s') := rfl
  have hfind2 : s'.users.find? (fun v => decide (v.email = e)) = some u := by
    have husers : s'.users = s.users ++ [u] := rfl
    rw [husers, List.find?_append, hfind]
    rw [List.find?_cons_of_pos _ (by simp [hu])]
    rfl
  refine ⟨u, s', by rw [h1, hadd], rfl, rfl, by simp [hs'], ?_, ?_⟩
  · unfold Auth.register_user
    rw [find_user_by_email, hfind2]
  · intro v hv hve
    have hv' : v ∈ s.users ∨ v = u := by simpa [hs'] using hv
    rcases hv' with hvl | hvu
    · exact absurd hve (h v hvl)
    · rw [hvu]

theorem register_user_spec_witness :
    ∃ u s', Auth.register_user 7 "a@b.com" "pw1" ⟨[], 1⟩ = .ok (u, s') ∧
      u.email = "a@b.com" ∧ u.hashed_password = Auth._hash_password "pw1" 7 ∧
      u ∈ s'.users ∧
      Auth.register_user 9 "a@b.com" "pw2" s'
        = .error (.valueError ("User " ++ "a@b.com" ++ " already exists")) ∧
      ∀ v ∈ s'.users, v.email = "a@b.com" →
        v.hashed_password = Auth._hash_password "pw1" 7 :=
  register_user_spec 7 9 "a@b.com" "pw1" "pw2" ⟨[], 1⟩ (by simp)

lemma get_reset_eq_of_found (fresh e : String) (s : DBState) (u : User)
    (hu : s.users.find? (fun v => decide (v.email = e)) = some u) :
    Auth.get_reset_password_token fresh e s
      = (match DB.update_user u.id [("reset_token", .vstr fresh)] s with
         | .error e => .error e
         | .ok s' => .ok (fresh, s')) := by
  unfold Auth.get_reset_password_token
  rw [find_user_by_email, hu]

/-- C8: `get_reset_password_token` fails `ValueError` when no stored user has
the email; when the first stored user with the email is `u`, it returns the
generated token and persists it as `u`'s `reset_token` in the store. -/
theorem get_reset_password_token_spec (fresh e : String) (s : DBState) :
    ((∀ u ∈ s.users, u.email ≠ e) →
        Auth.get_reset_password_token fresh e s = .error (.valueError "")) ∧
    (∀ u, s.users.find? (fun v => decide (v.email = e)) = some u →
      Auth.get_reset_password_token fresh e s
        = .ok (fresh, { s with users := s.users.map (fun v =>
            if v.id = u.id then { v with reset_token := some fresh } else v) }) ∧
      { u with reset_token := some fresh } ∈ s.users.map (fun v =>
            if v.id = u.id then { v with reset_token := some fresh } else v)) := by
  constructor
  · intro hno
    have hfind : s.users.find? (fun v => decide (v.email = e)) = none := by
      rw [List.find?_eq_none]
      intro x hx
      simpa using hno x hx
    unfold Auth.get_reset_password_token
    rw [find_user_by_email, hfind]
  · intro u hu
    have humem : u ∈ s.users := List.mem_of_find?_eq_some hu
    have hupd := update_user_ok u.id [("reset_token", .vstr fresh)] s rfl u humem rfl
    have hfold : (fun v : User => if v.id = u.id then
          [(("reset_token" : String), Value.vstr fresh)].foldl
            (fun w p => setField w p.1 p.2) v
          else v)
        = (fun v : User =>
            if v.id = u.id then { v with reset_token := some fresh } else v) := by
      funext v
      rw [foldl_set_reset_str]
    constructor
    · rw [get_reset_eq_of_found fresh e s u hu, hupd, hfold]
    · exact List.mem_map.mpr ⟨u, humem, by simp⟩

theorem get_reset_password_token_spec_witness :
    (Auth.get_reset_password_token "tok-1" "zz@x" sampleState
        = .error (.valueError "")) ∧
    Auth.get_reset_password_token "tok-1" "a@b.com" sampleState
        = .ok ("tok-1", { sampleState with users := sampleState.users.map (fun v =>
            if v.id = sampleUser.id then { v with reset_token := some "tok-1" }
            else v) }) ∧
    { sampleUser with reset_token := some "tok-1" } ∈ sampleState.users.map (fun v =>
        if v.id = sampleUser.id then { v with reset_token := some "tok-1" } else v) :=
  ⟨(get_reset_password_token_spec "tok-1" "zz@x" sampleState).1 (by decide),
   (get_reset_password_token_spec "tok-1" "a@b.com" sampleState).2 sampleUser rfl⟩

lemma update_password_eq_of_found (salt : Nat) (t p : String) (s : DBState)
    (u : User)
    (hu : s.users.find? (fun v => decide (v.reset_token = some t)) = some u) :
    Auth.update_password salt t p s
      = DB.update_user u.id
          [("hashed_password", .vbytes (Auth._hash_password p salt)),
           ("reset_token", .vnone)] s := by
  unfold Auth.update_password
  rw [find_user_by_reset, hu]

/-- C1: when no stored user holds reset token `t`, `update_password` fails
`ValueError` (raising before any store mutation, so no user's state
changes); when `u` is the sole holder of `t`, the call sets `u`'s
`hashed_password` to the hash of the new password and clears `reset_token`
to null in one and the same single update, and an immediate second
`update_password` with the same token fails `ValueError` — the token is
consumed exactly once. -/
theorem update_password_spec (salt salt' : Nat) (t p p' : String) (s : DBState) :
    ((∀ u ∈ s.users, u.reset_token ≠ some t) →
        Auth.update_password salt t p s = .error (.valueError "")) ∧
    (∀ u, s.users.find? (fun v => decide (v.reset_token = some t)) = some u →
      (∀ v ∈ s.users, v.reset_token = some t → v = u) →
      Auth.update_password salt t p s
        = .ok { s with users := s.users.map (fun v =>
            if v.id = u.id then
              { v with hashed_password := Auth._hash_password p salt,
                       reset_token := none }
            else v) } ∧
      { u with hashed_password := Auth._hash_password p salt, reset_token := none }
        ∈ s.users.map (fun v =>
            if v.id = u.id then
              { v with hashed_password := Auth._hash_password p salt,
                       reset_token := none }
            else v) ∧
      Auth.update_password salt' t p'
          { s with users := s.users.map (fun v =>
            if v.id = u.id then
              { v with hashed_password := Auth._hash_password p salt,
                       reset_token := none }
            else v) }
        = .error (.valueError "")) := by
  constructor
  · intro hno
    have hfind : s.users.find? (fun v => decide (v.reset_token = some t)) = none := by
      rw [List.find?_eq_none]
      intro x hx
      simpa using hno x hx
    unfold Auth.update_password
    rw [find_user_by_reset, hfind]
  · intro u hu huniq
    have humem : u ∈ s.users := List.mem_of_find?_eq_some hu
    have hupd := update_user_ok u.id
      [("hashed_password", .vbytes (Auth._hash_password p salt)),
       ("reset_token", .vnone)] s rfl u humem rfl
    have hfold : (fun v : User => if v.id = u.id then
          [(("hashed_password" : String), Value.vbytes (Auth._hash_password p salt)),
           (("reset_token" : String), Value.vnone)].foldl
            (fun w p => setField w p.1 p.2) v
          else v)
        = (fun v : User => if v.id = u.id then
            { v with hashed_password := Auth._hash_password p salt,
                     reset_token := none }
          else v) := by
      funext v
      rw [foldl_set_pw_reset]
    refine ⟨?_, List.mem_map.mpr ⟨u, humem, by simp⟩, ?_⟩
    · rw [update_password_eq_of_found salt t p s u hu, hupd, hfold]
    · unfold Auth.update_password
      rw [find_user_by_reset]
      have hnone : (s.users.map (fun v => if v.id = u.id then
            { v with hashed_password := Auth._hash_password p salt,
                     reset_token := none }
          else v)).find? (fun v => decide (v.reset_token = some t)) = none := by
        rw [List.find?_map]
        have hpt : ∀ v ∈ s.users,
            ((fun w : User => decide (w.reset_token = some t)) ∘
              (fun v : User => if v.id = u.id then
                { v with hashed_password := Auth._hash_password p salt,
                         reset_token := none }
              else v)) v
            = (fun _ : User => false) v := by
          intro v hv
          by_cases h : v.id = u.id
          · simp [Function.comp, h]
          · have : v.reset_token ≠ some t := by
              intro hvt
              exact h (by rw [huniq v hv hvt])
            simp [Function.comp, h, this]
        rw [find?_congr s.users hpt]
        simp [List.find?_eq_none]
      rw [hnone]

/-- Sample row holding a pending reset token. -/
def resetUser : User :=
  ⟨1, "a@b.com", Bytes.bcryptHash 7 (bcryptDigest 7 "pw1"), none, some "tok-1"⟩

/-- Sample state with the one reset-token holder. -/
def resetState : DBState := ⟨[resetUser], 2⟩

theorem update_password_spec_witness :
    (Auth.update_password 3 "zz" "x" resetState = .error (.valueError "")) ∧
    (Auth.update_password 3 "tok-1" "pw2" resetState
        = .ok { resetState with users := resetState.users.map (fun v =>
            if v.id = resetUser.id then
              { v with hashed_password := Auth._hash_password "pw2" 3,
                       reset_token := none }
            else v) } ∧
      { resetUser with hashed_password := Auth._hash_password "pw2" 3,
                       reset_token := none }
        ∈ resetState.users.map (fun v =>
            if v.id = resetUser.id then
              { v with hashed_password := Auth._hash_password "pw2" 3,
                       reset_token := none }
            else v) ∧
      Auth.update_password 5 "tok-1" "pw3"
          { resetState with users := resetState.users.map (fun v =>
            if v.id = resetUser.id then
              { v with hashed_password := Auth._hash_password "pw2" 3,
                       reset_token := none }
            else v) }
        = .error (.valueError "")) :=
  ⟨(update_password_spec 3 5 "zz" "x" "x2" resetState).1 (by decide),
   (update_password_spec 3 5 "tok-1" "pw2" "pw3" resetState).2 resetUser rfl
     (by intro v hv _; simpa [resetState] using hv)⟩

lemma guard_session_none :
    ([(("session_id" : String), Value.vnone)].all
      (fun p => userAttrs.contains p.1)) = true := rfl

lemma guard_session_none_hasattr :
    ([(("session_id" : String), Value.vnone)].all
      (fun p => userHasAttr p.1)) = true := rfl

/-- Inversion: a successful `destroy_session` on a concrete id means some
row had that id, and the result state is the single session-clearing map. -/
lemma destroy_session_some_ok (uid : Nat) (s s' : DBState)
    (h : Auth.destroy_session (some uid) s = .ok s') :
    (∃ w ∈ s.users, w.id = uid) ∧
    s' = { s with users := s.users.map (fun v =>
      if v.id = uid then { v with session_id := none } else v) } := by
  have hd : Auth.destroy_session (some uid) s
      = DB.update_user uid [(("session_id" : String), Value.vnone)] s := rfl
  rw [hd] at h
  unfold DB.update_user at h
  rw [find_user_by_id] at h
  cases hfind : s.users.find? (fun v => decide (v.id = uid)) with
  | none =>
    rw [hfind] at h
    exact absurd h (by simp)
  | some w =>
    rw [hfind] at h
    have hw : w ∈ s.users := List.mem_of_find?_eq_some hfind
    have hwid : w.id = uid := by simpa using List.find?_some hfind
    refine ⟨⟨w, hw, hwid⟩, ?_⟩
    have hfold : (fun v : User => if v.id = uid then
          [(("session_id" : String), Value.vnone)].foldl
            (fun w p => setField w p.1 p.2) v
          else v)
        = (fun v : User =>
            if v.id = uid then { v with session_id := none } else v) := by
      funext v
      rw [foldl_set_session_none]
    have h' : ({ s with users := s.users.map (fun v => if v.id = uid then
        [(("session_id" : String), Value.vnone)].foldl
          (fun w p => setField w p.1 p.2) v
        else v) } : DBState) = s' := by
      have := h
      simp only [guard_session_none, guard_session_none_hasattr] at this
      simpa using this
    rw [← h', hfold]

/-- C9: `destroy_session` is a no-op on a null user id; for a stored user it
clears exactly that user's `session_id` to null; it is idempotent — running
it a second time with the same id leaves the state exactly as after the
first run; and once the session of the sole holder of a token is destroyed,
`get_user_from_session_id` on the token issued before destruction returns
`None`. -/
theorem destroy_session_spec (s : DBState) :
    (Auth.destroy_session none s = .ok s) ∧
    (∀ u ∈ s.users,
      Auth.destroy_session (some u.id) s
        = .ok { s with users := s.users.map (fun v =>
            if v.id = u.id then { v with session_id := none } else v) } ∧
      { u with session_id := none } ∈ s.users.map (fun v =>
            if v.id = u.id then { v with session_id := none } else v)) ∧
    (∀ uid s', Auth.destroy_session (some uid) s = .ok s' →
        Auth.destroy_session (some uid) s' = .ok s') ∧
    (∀ t u, s.users.find? (fun v => decide (v.session_id = some t)) = some u →
      (∀ v ∈ s.users, v.session_id = some t → v = u) →
      ∀ s', Auth.destroy_session (some u.id) s = .ok s' →
        Auth.get_user_from_session_id (some t) s' = .ok none) := by
  refine ⟨rfl, ?_, ?_, ?_⟩
  · intro u hm
    have hupd := update_user_ok u.id [(("session_id" : String), Value.vnone)] s
      rfl u hm rfl
    have hfold : (fun v : User => if v.id = u.id then
          [(("session_id" : String), Value.vnone)].foldl
            (fun w p => setField w p.1 p.2) v
          else v)
        = (fun v : User =>
            if v.id = u.id then { v with session_id := none } else v) := by
      funext v
      rw [foldl_set_session_none]
    constructor
    · have hd : Auth.destroy_session (some u.id) s
          = DB.update_user u.id [(("session_id" : String), Value.vnone)] s := rfl
      rw [hd, hupd, hfold]
    · exact List.mem_map.mpr ⟨u, hm, by simp⟩
  · intro uid s' h
    obtain ⟨⟨w, hw, hwid⟩, hs'⟩ := destroy_session_some_ok uid s s' h
    have hw' : ({ w with session_id := none } : User) ∈ s'.users := by
      rw [hs']
      exact List.mem_map.mpr ⟨w, hw, by rw [if_pos hwid]⟩
    have hupd := update_user_ok uid [(("session_id" : String), Value.vnone)] s'
      rfl { w with session_id := none } hw' hwid
    have husers : s'.users.map (fun v => if v.id = uid then
          [(("session_id" : String), Value.vnone)].foldl
            (fun w p => setField w p.1 p.2) v
          else v)
        = s'.users := by
      rw [hs']
      dsimp only
      rw [List.map_map]
      refine List.map_congr_left (fun v hv => ?_)
      by_cases hvid : v.id = uid
      · simp [Function.comp, hvid]
        rfl
      · simp [Function.comp, hvid]
    have hd2 : Auth.destroy_session (some uid) s'
        = DB.update_user uid [(("session_id" : String), Value.vnone)] s' := rfl
    rw [hd2, hupd, husers]
  · intro t u hu huniq s' h
    obtain ⟨_, hs'⟩ := destroy_session_some_ok u.id s s' h
    have h2 : Auth.get_user_from_session_id (some t) s'
        = (match DB.find_user_by [("session_id", Value.vstr t)] s' with
           | .ok w => .ok (some w)
           | .error .noResultFound => .ok none
           | .error e => .error e) := rfl
    rw [h2, find_user_by_session]
    have hnone : s'.users.find? (fun v => decide (v.session_id = some t))
        = none := by
      rw [hs']
      dsimp only
      rw [List.find?_map]
      have hpt : ∀ v ∈ s.users,
          ((fun w : User => decide (w.session_id = some t)) ∘
            (fun v : User =>
              if v.id = u.id then { v with session_id := none } else v)) v
          = (fun _ : User => false) v := by
        intro v hv
        by_cases hvid : v.id = u.id
        · simp [Function.comp, hvid]
        · have hvt : v.session_id ≠ some t :=
            fun hvt => hvid (by rw [huniq v hv hvt])
          simp [Function.comp, hvid, hvt]
      rw [find?_congr s.users hpt]
      simp [List.find?_eq_none]
    rw [hnone]

/-- Sample row holding an active session token. -/
def sessUser : User :=
  ⟨1, "a@b.com", Bytes.bcryptHash 7 (bcryptDigest 7 "pw1"), some "sess-1", none⟩

/-- Sample state with the one session holder. -/
def sessState : DBState := ⟨[sessUser], 2⟩

theorem destroy_session_spec_witness :
    Auth.destroy_session none sessState = .ok sessState ∧
    Auth.destroy_session (some sessUser.id) sessState
      = .ok { sessState with users := sessState.users.map (fun v =>
          if v.id = sessUser.id then { v with session_id := none } else v) } ∧
    Auth.destroy_session (some sessUser.id)
        { sessState with users := sessState.users.map (fun v =>
          if v.id = sessUser.id then { v with session_id := none } else v) }
      = .ok { sessState with users := sessState.users.map (fun v =>
          if v.id = sessUser.id then { v with session_id := none } else v) } ∧
    Auth.get_user_from_session_id (some "sess-1")
        { sessState with users := sessState.users.map (fun v =>
          if v.id = sessUser.id then { v with session_id := none } else v) }
      = .ok none := by
  have hspec := destroy_session_spec sessState
  have h2 := (hspec.2.1 sessUser (by simp [sessState])).1
  exact ⟨hspec.1, h2, hspec.2.2.1 sessUser.id _ h2,
    hspec.2.2.2 "sess-1" sessUser rfl
      (by intro v hv _; simpa [sessState] using hv) _ h2⟩

/-- C10: a successful `update_password` for the reset-token holder `u`
changes only the `hashed_password` and `reset_token` columns of rows with
`u`'s id: the counter and every other row are untouched, the updated row
keeps `u`'s id, email and `session_id`, and a session token that resolved to
some user before the reset still resolves afterwards to a user with the same
id, email and `session_id`. -/
theorem update_password_frame (salt : Nat) (t p : String) (s : DBState)
    (u : User)
    (hu : s.users.find? (fun v => decide (v.reset_token = some t)) = some u) :
    ∃ s', Auth.update_password salt t p s = .ok s' ∧
      s'.nextId = s.nextId ∧
      s'.users = s.users.map (fun v => if v.id = u.id then
          { v with hashed_password := Auth._hash_password p salt,
                   reset_token := none }
        else v) ∧
      (∀ v ∈ s.users, v.id ≠ u.id → v ∈ s'.users) ∧
      ({ u with hashed_password := Auth._hash_password p salt,
                reset_token := none } : User).id = u.id ∧
      ({ u with hashed_password := Auth._hash_password p salt,
                reset_token := none } : User).email = u.email ∧
      ({ u with hashed_password := Auth._hash_password p salt,
                reset_token := none } : User).session_id = u.session_id ∧
      (∀ tok u₀, Auth.get_user_from_session_id (some tok) s = .ok (some u₀) →
        ∃ u₁, Auth.get_user_from_session_id (some tok) s' = .ok (some u₁) ∧
          u₁.id = u₀.id ∧ u₁.email = u₀.email ∧
          u₁.session_id = u₀.session_id) := by
  have humem : u ∈ s.users := List.mem_of_find?_eq_some hu
  have hupd := update_user_ok u.id
    [("hashed_password", .vbytes (Auth._hash_password p salt)),
     ("reset_token", .vnone)] s rfl u humem rfl
  have hfold : (fun v : User => if v.id = u.id then
        [(("hashed_password" : String), Value.vbytes (Auth._hash_password p salt)),
         (("reset_token" : String), Value.vnone)].foldl
          (fun w p => setField w p.1 p.2) v
        else v)
      = (fun v : User => if v.id = u.id then
          { v with hashed_password := Auth._hash_password p salt,
                   reset_token := none }
        else v) := by
    funext v
    rw [foldl_set_pw_reset]
  refine ⟨{ s with users := s.users.map (fun v => if v.id = u.id then
      { v with hashed_password := Auth._hash_password p salt,
               reset_token := none }
    else v) }, ?_, rfl, rfl, ?_, rfl, rfl, rfl, ?_⟩
  · rw [update_password_eq_of_found salt t p s u hu, hupd, hfold]
  · intro v hv hvid
    exact List.mem_map.mpr ⟨v, hv, by rw [if_neg hvid]⟩
  · intro tok u₀ hg
    have h2 : Auth.get_user_from_session_id (some tok) s
        = (match DB.find_user_by [("session_id", Value.vstr tok)] s with
           | .ok w => .ok (some w)
           | .error .noResultFound => .ok none
           | .error e => .error e) := rfl
    rw [h2, find_user_by_session] at hg
    cases hfind : s.users.find? (fun v => decide (v.session_id = some tok)) with
    | none =>
      rw [hfind] at hg
      simp at hg
    | some w =>
      rw [hfind] at hg
      have hw : w = u₀ := by simpa using hg
      subst hw
      refine ⟨if w.id = u.id then
          { w with hashed_password := Auth._hash_password p salt,
                   reset_token := none }
        else w, ?_, ?_, ?_, ?_⟩
      · have h3 : Auth.get_user_from_session_id (some tok)
            { s with users := s.users.map (fun v => if v.id = u.id then
                { v with hashed_password := Auth._hash_password p salt,
                         reset_token := none }
              else v) }
            = (match DB.find_user_by [("session_id", Value.vstr tok)]
                { s with users := s.users.map (fun v => if v.id = u.id then
                    { v with hashed_password := Auth._hash_password p salt,
                             reset_token := none }
                  else v) } with
               | .ok w => .ok (some w)
               | .error .noResultFound => .ok none
               | .error e => .error e) := rfl
        rw [h3, find_user_by_session]
        have hpt : ∀ v ∈ s.users,
            ((fun w : User => decide (w.session_id = some tok)) ∘
              (fun v : User => if v.id = u.id then
                { v with hashed_password := Auth._hash_password p salt,
                         reset_token := none }
              else v)) v
            = (fun v : User => decide (v.session_id = some tok)) v := by
          intro v hv
          by_cases hvid : v.id = u.id <;> simp [Function.comp, hvid]
        have hmap : (s.users.map (fun v => if v.id = u.id then
              { v with hashed_password := Auth._hash_password p salt,
                       reset_token := none }
            else v)).find? (fun w => decide (w.session_id = some tok))
            = some (if w.id = u.id then
                { w with hashed_password := Auth._hash_password p salt,
                         reset_token := none }
              else w) := by
          rw [List.find?_map, find?_congr s.users hpt, hfind]
          rfl
        rw [hmap]
      · by_cases hvid : w.id = u.id <;> simp [hvid]
      · by_cases hvid : w.id = u.id <;> simp [hvid]
      · by_cases hvid : w.id = u.id <;> simp [hvid]

/-- Sample row holding both an active session and a pending reset token. -/
def frameUser : User :=
  ⟨1, "a@b.com", Bytes.bcryptHash 7 (bcryptDigest 7 "pw1"),
   some "sess-1", some "tok-1"⟩

/-- Sample state with the one session-and-reset holder. -/
def frameState : DBState := ⟨[frameUser], 2⟩

theorem update_password_frame_witness :
    ∃ s', Auth.update_password 3 "tok-1" "pw2" frameState = .ok s' ∧
      s'.nextId = frameState.nextId ∧
      s'.users = frameState.users.map (fun v => if v.id = frameUser.id then
          { v with hashed_password := Auth._hash_password "pw2" 3,
                   reset_token := none }
        else v) ∧
      (∀ v ∈ frameState.users, v.id ≠ frameUser.id → v ∈ s'.users) ∧
      ({ frameUser with hashed_password := Auth._hash_password "pw2" 3,
                        reset_token := none } : User).id = frameUser.id ∧
      ({ frameUser with hashed_password := Auth._hash_password "pw2" 3,
                        reset_token := none } : User).email = frameUser.email ∧
      ({ frameUser with hashed_password := Auth._hash_password "pw2" 3,
                        reset_token := none } : User).session_id
        = frameUser.session_id ∧
      (∀ tok u₀,
        Auth.get_user_from_session_id (some tok) frameState = .ok (some u₀) →
        ∃ u₁, Auth.get_user_from_session_id (some tok) s' = .ok (some u₁) ∧
          u₁.id = u₀.id ∧ u₁.email = u₀.email ∧
          u₁.session_id = u₀.session_id) :=
  update_password_frame 3 "tok-1" "pw2" frameState frameUser rfl

end AuthSpec
